import Mathlib

/-!
Shallow embedding of the client-side push channel (`pushee`) of the dash
repository, file `dash-renderer/src/pusher.js` (the full variant with
`sendQueue`, `requestNum`, `checkPending`, and `mod` / `mod_n` dispatch).

State is the module-level singleton object; handlers (`setProps` entries)
and request resolvers are modelled by logs: an invocation of a registered
observer is recorded in `calls`, a resolution of a pending request future
is recorded in `resolved`.  JavaScript exceptions (the `in` operator
applied to a primitive) are modelled by an `Option String` error component
threaded through `update`; mutations performed before a throw persist,
as they do in JavaScript.
-/

set_option maxRecDepth 20000

namespace Pushee

/-- JavaScript values, as far as the channel inspects them:
`undefined`, `null`, booleans, (integer) numbers, strings, and plain
objects as association lists of fields. -/
inductive JsVal : Type where
  | undefined : JsVal
  | null : JsVal
  | bool : Bool → JsVal
  | num : Int → JsVal
  | str : String → JsVal
  | obj : List (String × JsVal) → JsVal
deriving Repr

/-- `Object.keys(v)`: the own enumerable keys of an object, in insertion
order; (for the primitives the channel can meet here) the empty list. -/
def JsVal.keys : JsVal → List String
  | .obj fs => fs.map Prod.fst
  | _ => []

/-- Property read `v[k]`: the first field named `k` (a live JavaScript
object has distinct keys), `undefined` when absent or `v` not an object. -/
def JsVal.get (v : JsVal) (k : String) : JsVal :=
  match v with
  | .obj fs => (((fs.find? (fun p => p.1 = k)).map Prod.snd).getD .undefined)
  | _ => .undefined

/-- Whether a value is a plain object (the only receiver the `in`
operator accepts among the values modelled here). -/
def JsVal.isObj : JsVal → Bool
  | .obj _ => true
  | _ => false

/-- The JavaScript `k in v` operator: key membership for objects, a
`TypeError` for primitive receivers. -/
def jsIn (k : String) : JsVal → Except String Bool
  | .obj fs => .ok (fs.any (fun p => p.1 = k))
  | _ => .error "TypeError: cannot use in operator on a non-object"

/-- The three `pushee` functions installed as WebSocket callbacks in
`checkSocket`: `receive`, `open`, `close`. -/
inductive Handler : Type where
  | hReceive : Handler
  | hOpen : Handler
  | hClose : Handler
deriving Repr, DecidableEq

/-- `WebSocket.readyState` values the channel distinguishes. -/
inductive ReadyState : Type where
  | connecting : ReadyState
  | opened : ReadyState
  | closing : ReadyState
  | closed : ReadyState
deriving Repr, DecidableEq

/-- Outbound envelope built by `request`: `{id: n, url: ..., data?: ...}`;
`data = none` models the absence of the optional field. -/
structure Envelope : Type where
  id : Nat
  url : String
  data : Option JsVal
deriving Repr

/-- The WebSocket handle: its ready state, the frames it has transmitted
(in transmission order, kept structured rather than serialized), and the
three lifecycle callbacks assigned by `checkSocket`. -/
structure Socket : Type where
  readyState : ReadyState
  sent : List Envelope
  onmessage : Option Handler
  onopen : Option Handler
  onclose : Option Handler
deriving Repr

/-- The `id` field of an inbound message: the string discriminants
`mod` / `mod_n` arrive as strings, reply correlation ids as numbers. -/
inductive MsgId : Type where
  | str : String → MsgId
  | num : Nat → MsgId
deriving Repr, DecidableEq

/-- An inbound message after `JSON.parse`: `{id: ..., data: ...}`. -/
structure InMsg : Type where
  id : MsgId
  data : JsVal
deriving Repr

/-- A recorded invocation of a registered observer
`setProps[id](val, notify, 'children' in val)`. -/
structure Call : Type where
  id : String
  val : JsVal
  notify : Bool
  structural : Bool
deriving Repr

/-- The state of the `pushee` singleton.  `setProps` keeps the registered
entity ids (the registry maps each id to one observer; an invocation is
logged in `calls` under its id).  `pending` keeps the sequence numbers
currently in the pending-request table (each mapped to a one-shot
resolver; a resolution is logged in `resolved`). -/
structure ChanState : Type where
  setProps : List String
  socket : Option Socket
  pending : List Nat
  sendQueue : List Envelope
  requestNum : Nat
  resolved : List (Nat × JsVal)
  calls : List Call
deriving Repr

/-- The initial value of the `pushee` object literal. -/
def initState : ChanState :=
  { setProps := [], socket := none, pending := [], sendQueue := [],
    requestNum := 0, resolved := [], calls := [] }

/-- The socket `checkSocket` builds: `new WebSocket(url)` (which starts
in the CONNECTING state with nothing sent) followed by the three
callback assignments. -/
def freshSocket : Socket :=
  { readyState := .connecting, sent := [],
    onmessage := some .hReceive, onopen := some .hOpen,
    onclose := some .hClose }

/-- `pushee.checkSocket`: if `socket === null`, create a WebSocket and
attach `onmessage = receive`, `onopen = open`, `onclose = close`;
otherwise do nothing. -/
def checkSocket (st : ChanState) : ChanState :=
  match st.socket with
  | none => { st with socket := some freshSocket }
  | some _ => st

/-- `Number.MAX_SAFE_INTEGER`, the initial value of `min` in
`checkPending`. -/
def maxSafeInteger : Nat := 2 ^ 53 - 1

/-- The `max` accumulation of `checkPending` (initial value `0`). -/
def maxKey (l : List Nat) : Nat := l.foldl max 0

/-- The `min` accumulation of `checkPending` (initial value
`Number.MAX_SAFE_INTEGER`). -/
def minKey (l : List Nat) : Nat := l.foldl min maxSafeInteger

/-- `index < midway` where `midway = (min + max) / 2` is evaluated in
exact (floating-point) arithmetic: for integer keys,
`k < (min + max) / 2` iff `2 * k < min + max`. -/
def belowMidway (minK maxK k : Nat) : Bool := 2 * k < minK + maxK

/-- `pushee.checkPending`: when the pending table holds more than 50
entries, compute the minimum and maximum pending sequence numbers and
delete (without resolving) every entry whose key is below their
midpoint. -/
def checkPending (st : ChanState) : ChanState :=
  if st.pending.length > 50 then
    { st with
      pending := st.pending.filter
        (fun k => ¬ belowMidway (minKey st.pending) (maxKey st.pending) k) }
  else st

/-- `pushee.add` (the `register` operation): ensure the socket exists,
then store the observer under `props.id` (as a key set: insert the id if
new; re-registration overwrites the stored observer in place). -/
def add (st : ChanState) (propsId : String) : ChanState :=
  let st1 := checkSocket st
  if propsId ∈ st1.setProps then st1
  else { st1 with setProps := st1.setProps ++ [propsId] }

/-- The body of `pushee.update`'s loop over `Object.keys(data)`: for
each id registered in `setProps`, invoke its observer with
`(data[id], notify, 'children' in data[id])`; a `TypeError` from the
`in` operator aborts the loop, keeping the invocations already made. -/
def updateGo (data : JsVal) (notify : Bool) :
    List String → ChanState → ChanState × Option String
  | [], st => (st, none)
  | id :: rest, st =>
    if id ∈ st.setProps then
      match jsIn "children" (data.get id) with
      | .error e => (st, some e)
      | .ok b =>
        updateGo data notify rest
          { st with calls := st.calls ++
              [{ id := id, val := data.get id, notify := notify,
                 structural := b }] }
    else updateGo data notify rest st

/-- `pushee.update(data, notify)`: deliver the mapping `data` to the
registered observers; ids absent from the registry are skipped. -/
def update (st : ChanState) (data : JsVal) (notify : Bool) :
    ChanState × Option String :=
  updateGo data notify data.keys st

/-- The pending-table entries whose (string) key equals the property key
of the inbound `id` (a numeric key `n` is the string `toString n`). -/
def pendingMatches (pending : List Nat) : MsgId → List Nat
  | .num n => pending.filter (fun k => k = n)
  | .str s => pending.filter (fun k => toString k = s)

/-- `data.id in pushee.pending`. -/
def inPending (pending : List Nat) (i : MsgId) : Bool :=
  !(pendingMatches pending i).isEmpty

/-- `pushee.receive`: dispatch an inbound message — `mod` to
`update(…, false)`, `mod_n` to `update(…, true)`, a pending correlation
id to its resolver (which is then deleted), anything else is dropped. -/
def receive (st : ChanState) (msg : InMsg) : ChanState × Option String :=
  if msg.id = .str "mod" then update st msg.data false
  else if msg.id = .str "mod_n" then update st msg.data true
  else if inPending st.pending msg.id then
    ({ st with
       resolved := st.resolved ++
         (pendingMatches st.pending msg.id).map (fun k => (k, msg.data)),
       pending := st.pending.filter
         (fun k => k ∉ pendingMatches st.pending msg.id) }, none)
  else (st, none)

/-- `pushee.send`: ensure the socket exists; while it is still
CONNECTING, append the envelope to `sendQueue`, otherwise transmit it
immediately. -/
def send (st : ChanState) (d : Envelope) : ChanState :=
  let st1 := checkSocket st
  match st1.socket with
  | none => st1
  | some sock =>
    if sock.readyState = .connecting then
      { st1 with sendQueue := st1.sendQueue ++ [d] }
    else
      { st1 with socket := some { sock with sent := sock.sent ++ [d] } }

/-- The envelope `request` builds: `{id: n, url: url}` with `data`
attached only when the payload is not `undefined`. -/
def mkRequestEnvelope (n : Nat) (url : String) (data : Option JsVal) :
    Envelope :=
  let d : Envelope := { id := n, url := url, data := none }
  if data.isSome then { d with data := data } else d

/-- `pushee.request(url, data)`: run backpressure maintenance, install a
resolver for the current `requestNum`, hand the envelope to `send`,
increment the counter, and return (the state and) the sequence number
whose future the caller awaits. -/
def request (st : ChanState) (url : String) (data : Option JsVal) :
    ChanState × Nat :=
  let st1 := checkPending st
  let n := st1.requestNum
  let st2 := { st1 with pending := st1.pending ++ [n] }
  let st3 := send st2 (mkRequestEnvelope n url data)
  ({ st3 with requestNum := st3.requestNum + 1 }, n)

/-- The exported wrapper `pusheeRequest(url, data = null)`: an omitted
payload defaults to `null` before reaching `request`. -/
def pusheeRequest (st : ChanState) (url : String) (data : Option JsVal) :
    ChanState × Nat :=
  request st url (some (data.getD .null))

/-- `pushee.close` (the `onclose` callback): drop the socket handle,
the outbound queue and the pending table. -/
def closeEvt (st : ChanState) : ChanState :=
  { st with socket := none, sendQueue := [], pending := [] }

/-- The connection-opened event: the transport flips `readyState` to
OPEN and fires `pushee.open`, which transmits every queued envelope in
order — and leaves `sendQueue` untouched. -/
def openEvt (st : ChanState) : ChanState :=
  match st.socket with
  | none => st
  | some sock =>
    let sock2 : Socket :=
      { sock with readyState := .opened, sent := sock.sent ++ st.sendQueue }
    { st with socket := some sock2 }

/-- The externally triggered channel operations: observer registration,
a correlated request, an inbound message, and the socket lifecycle
events. -/
inductive Event : Type where
  | register : String → Event
  | req : String → Option JsVal → Event
  | msg : InMsg → Event
  | sockOpen : Event
  | sockClose : Event
deriving Repr

/-- One step of the single-threaded event loop. -/
def step (st : ChanState) : Event → ChanState
  | .register i => add st i
  | .req url d => (request st url d).1
  | .msg m => (receive st m).1
  | .sockOpen => openEvt st
  | .sockClose => closeEvt st

/-- Run a sequence of events. -/
def run (st : ChanState) (evs : List Event) : ChanState :=
  evs.foldl step st

/-- The structural flag `'children' in val` computed by `update` for an
object value (for a primitive the operator throws instead, see `jsIn`). -/
def childrenFlag : JsVal → Bool
  | .obj fs => fs.any (fun p => p.1 = "children")
  | _ => false

/-- The reachability invariant of the pending table: its keys are
distinct and every key is below the sequence counter. -/
def Inv (st : ChanState) : Prop :=
  st.pending.Nodup ∧ ∀ k ∈ st.pending, k < st.requestNum

/-- The events whose handling calls `checkSocket` (and hence can create
a connection): `add` and `request`. -/
def opensSocket : Event → Bool
  | .register _ => true
  | .req _ _ => true
  | _ => false

/-- A reachable channel state whose pending table holds 51 entries with
sparse keys: `0` and `100, …, 149` (requests `0 … 149` were issued and
replies for `1 … 99` arrived). -/
def sparseState : ChanState :=
  { initState with
    pending := 0 :: (List.range 50).map (fun i => i + 100),
    requestNum := 150 }

/-- A channel state captured while the socket is still connecting, with
one envelope waiting in the outbound queue. -/
def queuedState : ChanState :=
  { initState with
    socket := some freshSocket,
    sendQueue := [{ id := 0, url := "load_layout", data := none }],
    requestNum := 1, pending := [0] }


/-- The observer invocations a successful `update(data, notify)` makes,
in order: one per id of `ks` registered in `reg`, carrying the id's new
value and its structural flag. -/
def deliveredCalls (data : JsVal) (notify : Bool) (reg : List String)
    (ks : List String) : List Call :=
  (ks.filter (fun k => k ∈ reg)).map
    (fun k => { id := k, val := data.get k, notify := notify,
                structural := childrenFlag (data.get k) })

/-- The socket after the connection-opened event: readyState OPEN and the
queued envelopes appended to its transmission log. -/
def openedSocket (sock : Socket) (q : List Envelope) : Socket :=
  { sock with readyState := .opened, sent := sock.sent ++ q }

/-- The state after a single `request("load_layout")` from the initial
state: one pending entry `0`, counter at `1`, the envelope queued on the
fresh connecting socket. -/
def oneRequestState : ChanState := (request initState "load_layout" none).1

/-- A channel state with one registered observer, for `update` runs. -/
def regState : ChanState := { initState with setProps := ["slider"] }

/-- A broadcast mapping whose registered id carries an object value (and an
unregistered id carries a primitive, which is harmless). -/
def broadcastVal : JsVal :=
  .obj [("slider", .obj [("value", .num 5)]), ("other", .num 3)]

/-- A broadcast mapping a registered id to a primitive value. -/
def primBroadcast : JsVal := .obj [("slider", .num 5)]

/-! ### `update` delivery lemmas -/

lemma jsIn_children_obj (v : JsVal) (h : v.isObj = true) :
    jsIn "children" v = .ok (childrenFlag v) := by
  cases v <;> simp [JsVal.isObj] at h <;> rfl

lemma updateGo_frame (data : JsVal) (notify : Bool) (ks : List String) :
    ∀ st : ChanState,
      (updateGo data notify ks st).1.setProps = st.setProps ∧
      (updateGo data notify ks st).1.socket = st.socket ∧
      (updateGo data notify ks st).1.pending = st.pending ∧
      (updateGo data notify ks st).1.sendQueue = st.sendQueue ∧
      (updateGo data notify ks st).1.requestNum = st.requestNum ∧
      (updateGo data notify ks st).1.resolved = st.resolved := by
  induction ks with
  | nil => intro st; simp [updateGo]
  | cons id rest ih =>
    intro st
    unfold updateGo
    split
    · split
      · simp
      · simpa using ih _
    · exact ih st

lemma updateGo_ok (data : JsVal) (notify : Bool) (ks : List String) :
    ∀ st : ChanState,
      (∀ k ∈ ks, k ∈ st.setProps → (data.get k).isObj = true) →
      updateGo data notify ks st =
        ({ st with calls :=
            st.calls ++ deliveredCalls data notify st.setProps ks }, none) := by
  induction ks with
  | nil => intro st _; simp [updateGo, deliveredCalls]
  | cons id rest ih =>
    intro st h
    unfold updateGo
    by_cases hid : id ∈ st.setProps
    · rw [if_pos hid, jsIn_children_obj _ (h id (by simp) hid)]
      show updateGo data notify rest
          { st with calls := st.calls ++
              [{ id := id, val := data.get id, notify := notify,
                 structural := childrenFlag (data.get id) }] } = _
      refine (ih ({ st with calls := st.calls ++
          [{ id := id, val := data.get id, notify := notify,
             structural := childrenFlag (data.get id) }] })
        (fun k hk hm => h k (by simp [hk]) hm)).trans ?_
      simp [deliveredCalls, List.filter_cons, hid, ChanState.mk.injEq]
    · rw [if_neg hid]
      refine (ih _ (fun k hk hm => h k (by simp [hk]) hm)).trans ?_
      simp [deliveredCalls, List.filter_cons, hid, ChanState.mk.injEq]

lemma updateGo_calls_append (data : JsVal) (notify : Bool) (ks : List String) :
    ∀ st : ChanState, ∃ new : List Call,
      (updateGo data notify ks st).1.calls = st.calls ++ new ∧
      ∀ c ∈ new, c.id ∈ ks ∧ c.id ∈ st.setProps ∧ c.val = data.get c.id ∧
        (data.get c.id).isObj = true ∧ c.notify = notify := by
  induction ks with
  | nil => intro st; exact ⟨[], by simp [updateGo]⟩
  | cons id rest ih =>
    intro st
    unfold updateGo
    by_cases hid : id ∈ st.setProps
    · rw [if_pos hid]
      cases hj : jsIn "children" (data.get id) with
      | error e => exact ⟨[], by simp⟩
      | ok b =>
        have hobj : (data.get id).isObj = true := by
          cases hv : data.get id <;> simp_all [jsIn, JsVal.isObj]
        obtain ⟨new, hnew, hprop⟩ := ih
          { st with calls := st.calls ++
              [{ id := id, val := data.get id, notify := notify,
                 structural := b }] }
        refine ⟨{ id := id, val := data.get id, notify := notify,
                  structural := b } :: new, ?_, ?_⟩
        · simpa using hnew
        · intro c hc
          rcases List.mem_cons.mp hc with rfl | hc
          · exact ⟨by simp, hid, rfl, hobj, rfl⟩
          · have := hprop c hc
            exact ⟨by simp [this.1], this.2.1, this.2.2.1, this.2.2.2.1,
                   this.2.2.2.2⟩
    · rw [if_neg hid]
      obtain ⟨new, hnew, hprop⟩ := ih st
      refine ⟨new, hnew, fun c hc => ?_⟩
      have := hprop c hc
      exact ⟨by simp [this.1], this.2.1, this.2.2.1, this.2.2.2.1,
             this.2.2.2.2⟩

lemma updateGo_err (data : JsVal) (notify : Bool) (ks : List String) :
    ∀ st : ChanState, ∀ k ∈ ks, k ∈ st.setProps →
      (data.get k).isObj = false →
      ((updateGo data notify ks st).2).isSome = true := by
  induction ks with
  | nil => intro st k hk; simp at hk
  | cons id rest ih =>
    intro st k hk hreg hbad
    unfold updateGo
    by_cases hid : id ∈ st.setProps
    · rw [if_pos hid]
      cases hj : jsIn "children" (data.get id) with
      | error e => simp
      | ok b =>
        have hobj : (data.get id).isObj = true := by
          cases hv : data.get id <;> simp_all [jsIn, JsVal.isObj]
        have hne : k ≠ id := by
          intro he; rw [he] at hbad; rw [hbad] at hobj; exact Bool.noConfusion hobj
        have hk2 : k ∈ rest := by
          rcases List.mem_cons.mp hk with he | h2
          · exact absurd he hne
          · exact h2
        simpa using ih _ k hk2 (by simpa using hreg) hbad
    · rw [if_neg hid]
      have hne : k ≠ id := fun he => hid (he ▸ hreg)
      have hk2 : k ∈ rest := by
        rcases List.mem_cons.mp hk with he | h2
        · exact absurd he hne
        · exact h2
      exact ih st k hk2 hreg hbad

end Pushee

namespace Pushee

/-! ### Frame lemmas: which fields each operation leaves untouched -/

@[simp] lemma checkSocket_setProps (st : ChanState) :
    (checkSocket st).setProps = st.setProps := by
  unfold checkSocket; cases st.socket <;> rfl

@[simp] lemma checkSocket_pending (st : ChanState) :
    (checkSocket st).pending = st.pending := by
  unfold checkSocket; cases st.socket <;> rfl

@[simp] lemma checkSocket_sendQueue (st : ChanState) :
    (checkSocket st).sendQueue = st.sendQueue := by
  unfold checkSocket; cases st.socket <;> rfl

@[simp] lemma checkSocket_requestNum (st : ChanState) :
    (checkSocket st).requestNum = st.requestNum := by
  unfold checkSocket; cases st.socket <;> rfl

@[simp] lemma checkSocket_resolved (st : ChanState) :
    (checkSocket st).resolved = st.resolved := by
  unfold checkSocket; cases st.socket <;> rfl

@[simp] lemma checkSocket_calls (st : ChanState) :
    (checkSocket st).calls = st.calls := by
  unfold checkSocket; cases st.socket <;> rfl

lemma checkSocket_socket_some (st : ChanState) (s : Socket)
    (h : st.socket = some s) : checkSocket st = st := by
  unfold checkSocket; rw [h]

lemma checkSocket_socket_none (st : ChanState) (h : st.socket = none) :
    checkSocket st = { st with socket := some freshSocket } := by
  unfold checkSocket; rw [h]

@[simp] lemma checkPending_setProps (st : ChanState) :
    (checkPending st).setProps = st.setProps := by
  unfold checkPending; split <;> rfl

@[simp] lemma checkPending_socket (st : ChanState) :
    (checkPending st).socket = st.socket := by
  unfold checkPending; split <;> rfl

@[simp] lemma checkPending_sendQueue (st : ChanState) :
    (checkPending st).sendQueue = st.sendQueue := by
  unfold checkPending; split <;> rfl

@[simp] lemma checkPending_requestNum (st : ChanState) :
    (checkPending st).requestNum = st.requestNum := by
  unfold checkPending; split <;> rfl

@[simp] lemma checkPending_resolved (st : ChanState) :
    (checkPending st).resolved = st.resolved := by
  unfold checkPending; split <;> rfl

@[simp] lemma checkPending_calls (st : ChanState) :
    (checkPending st).calls = st.calls := by
  unfold checkPending; split <;> rfl

lemma checkPending_pending_sub (st : ChanState) :
    ∀ k ∈ (checkPending st).pending, k ∈ st.pending := by
  unfold checkPending; split
  · intro k hk; exact (List.mem_filter.mp hk).1
  · intro k hk; exact hk

lemma checkPending_pending_nodup (st : ChanState) (h : st.pending.Nodup) :
    (checkPending st).pending.Nodup := by
  unfold checkPending; split
  · exact h.filter _
  · exact h

lemma send_eq_none (st : ChanState) (d : Envelope) (h : st.socket = none) :
    send st d = { st with socket := some freshSocket,
                          sendQueue := st.sendQueue ++ [d] } := by
  unfold send
  rw [checkSocket_socket_none st h]
  rfl

lemma send_eq_connecting (st : ChanState) (d : Envelope) (sock : Socket)
    (h : st.socket = some sock) (hr : sock.readyState = .connecting) :
    send st d = { st with sendQueue := st.sendQueue ++ [d] } := by
  unfold send
  rw [checkSocket_socket_some st sock h]
  show (match st.socket with
    | none => st
    | some sock =>
      if sock.readyState = ReadyState.connecting then
        { st with sendQueue := st.sendQueue ++ [d] }
      else
        { st with socket := some ({ sock with sent := sock.sent ++ [d] }) }) =
    { st with sendQueue := st.sendQueue ++ [d] }
  rw [h]
  simp [hr]

lemma send_eq_ready (st : ChanState) (d : Envelope) (sock : Socket)
    (h : st.socket = some sock) (hr : sock.readyState ≠ .connecting) :
    send st d =
      { st with socket := some ({ sock with sent := sock.sent ++ [d] }) } := by
  unfold send
  rw [checkSocket_socket_some st sock h]
  show (match st.socket with
    | none => st
    | some sock =>
      if sock.readyState = ReadyState.connecting then
        { st with sendQueue := st.sendQueue ++ [d] }
      else
        { st with socket := some ({ sock with sent := sock.sent ++ [d] }) }) =
    { st with socket := some ({ sock with sent := sock.sent ++ [d] }) }
  rw [h]
  simp [hr]

@[simp] lemma send_setProps (st : ChanState) (d : Envelope) :
    (send st d).setProps = st.setProps := by
  cases h : st.socket with
  | none => rw [send_eq_none st d h]
  | some sock =>
    by_cases hr : sock.readyState = .connecting
    · rw [send_eq_connecting st d sock h hr]
    · rw [send_eq_ready st d sock h hr]

@[simp] lemma send_pending (st : ChanState) (d : Envelope) :
    (send st d).pending = st.pending := by
  cases h : st.socket with
  | none => rw [send_eq_none st d h]
  | some sock =>
    by_cases hr : sock.readyState = .connecting
    · rw [send_eq_connecting st d sock h hr]
    · rw [send_eq_ready st d sock h hr]

@[simp] lemma send_requestNum (st : ChanState) (d : Envelope) :
    (send st d).requestNum = st.requestNum := by
  cases h : st.socket with
  | none => rw [send_eq_none st d h]
  | some sock =>
    by_cases hr : sock.readyState = .connecting
    · rw [send_eq_connecting st d sock h hr]
    · rw [send_eq_ready st d sock h hr]

@[simp] lemma send_resolved (st : ChanState) (d : Envelope) :
    (send st d).resolved = st.resolved := by
  cases h : st.socket with
  | none => rw [send_eq_none st d h]
  | some sock =>
    by_cases hr : sock.readyState = .connecting
    · rw [send_eq_connecting st d sock h hr]
    · rw [send_eq_ready st d sock h hr]

@[simp] lemma send_calls (st : ChanState) (d : Envelope) :
    (send st d).calls = st.calls := by
  cases h : st.socket with
  | none => rw [send_eq_none st d h]
  | some sock =>
    by_cases hr : sock.readyState = .connecting
    · rw [send_eq_connecting st d sock h hr]
    · rw [send_eq_ready st d sock h hr]

/-! ### `receive` dispatch lemmas -/

lemma filter_eq_self_of_nodup_mem (l : List Nat) (n : Nat) (hd : l.Nodup)
    (hn : n ∈ l) : l.filter (fun k => k = n) = [n] := by
  induction l with
  | nil => simp at hn
  | cons x xs ih =>
    rcases List.mem_cons.mp hn with rfl | hmem
    · have hx : n ∉ xs := (List.nodup_cons.mp hd).1
      have hnil : xs.filter (fun k => k = n) = [] := by
        refine List.filter_eq_nil.mpr (fun a ha => ?_)
        simp only [decide_eq_true_eq]
        intro he; exact hx (he ▸ ha)
      simp [List.filter_cons, hnil]
    · have hne : x ≠ n := by
        intro he; exact (List.nodup_cons.mp hd).1 (he ▸ hmem)
      have h2 := ih (List.nodup_cons.mp hd).2 hmem
      simp [List.filter_cons, hne, h2]

lemma filter_not_mem_singleton (l : List Nat) (n : Nat) :
    l.filter (fun k => k ∉ ([n] : List Nat)) = l.filter (fun k => k ≠ n) := by
  refine List.filter_congr (fun a _ => ?_)
  simp

lemma pendingMatches_num (pending : List Nat) (n : Nat) (hd : pending.Nodup)
    (hn : n ∈ pending) : pendingMatches pending (.num n) = [n] :=
  filter_eq_self_of_nodup_mem pending n hd hn

lemma pendingMatches_sub (pending : List Nat) (i : MsgId) :
    ∀ k ∈ pendingMatches pending i, k ∈ pending := by
  cases i with
  | num n => intro k hk; exact (List.mem_filter.mp hk).1
  | str s => intro k hk; exact (List.mem_filter.mp hk).1

lemma receive_mod (st : ChanState) (msg : InMsg) (h : msg.id = .str "mod") :
    receive st msg = update st msg.data false := by
  unfold receive
  rw [if_pos h]

lemma receive_mod_n (st : ChanState) (msg : InMsg)
    (h : msg.id = .str "mod_n") :
    receive st msg = update st msg.data true := by
  unfold receive
  rw [if_neg (by simp [h]), if_pos h]

lemma receive_resolve (st : ChanState) (n : Nat) (d : JsVal)
    (hd : st.pending.Nodup) (hn : n ∈ st.pending) :
    receive st { id := .num n, data := d } =
      ({ st with resolved := st.resolved ++ [(n, d)],
                 pending := st.pending.filter (fun k => k ≠ n) }, none) := by
  unfold receive
  rw [if_neg (by simp), if_neg (by simp),
    if_pos (by simp [inPending, pendingMatches_num st.pending n hd hn])]
  have hm := pendingMatches_num st.pending n hd hn
  rw [hm, filter_not_mem_singleton]
  simp

lemma receive_drop (st : ChanState) (msg : InMsg)
    (h1 : msg.id ≠ .str "mod") (h2 : msg.id ≠ .str "mod_n")
    (h3 : inPending st.pending msg.id = false) :
    receive st msg = (st, none) := by
  unfold receive
  rw [if_neg h1, if_neg h2, if_neg (by simp [h3])]

/-! ### `request` lemmas -/

@[simp] lemma request_snd (st : ChanState) (url : String) (p : Option JsVal) :
    (request st url p).2 = st.requestNum := by
  simp [request]

@[simp] lemma request_requestNum (st : ChanState) (url : String)
    (p : Option JsVal) :
    (request st url p).1.requestNum = st.requestNum + 1 := by
  simp [request]

@[simp] lemma request_pending (st : ChanState) (url : String)
    (p : Option JsVal) :
    (request st url p).1.pending =
      (checkPending st).pending ++ [st.requestNum] := by
  simp [request]

@[simp] lemma request_resolved (st : ChanState) (url : String)
    (p : Option JsVal) :
    (request st url p).1.resolved = st.resolved := by
  simp [request]

@[simp] lemma request_setProps (st : ChanState) (url : String)
    (p : Option JsVal) :
    (request st url p).1.setProps = st.setProps := by
  simp [request]

@[simp] lemma request_calls (st : ChanState) (url : String)
    (p : Option JsVal) :
    (request st url p).1.calls = st.calls := by
  simp [request]

lemma mkRequestEnvelope_id (n : Nat) (url : String) (p : Option JsVal) :
    (mkRequestEnvelope n url p).id = n := by
  unfold mkRequestEnvelope; split <;> rfl

lemma mkRequestEnvelope_url (n : Nat) (url : String) (p : Option JsVal) :
    (mkRequestEnvelope n url p).url = url := by
  unfold mkRequestEnvelope; split <;> rfl

lemma mkRequestEnvelope_data (n : Nat) (url : String) (p : Option JsVal) :
    (mkRequestEnvelope n url p).data = p := by
  unfold mkRequestEnvelope
  cases p <;> simp

lemma request_out (st : ChanState) (url : String) (p : Option JsVal) :
    (request st url p).1.sendQueue =
        st.sendQueue ++ [mkRequestEnvelope st.requestNum url p] ∨
    ∃ sock, st.socket = some sock ∧ sock.readyState ≠ .connecting ∧
      (request st url p).1.socket =
        some ({ sock with
                 sent := sock.sent ++
                   [mkRequestEnvelope st.requestNum url p] }) := by
  simp only [request, checkPending_requestNum]
  have hsock : ({ checkPending st with pending :=
      (checkPending st).pending ++ [st.requestNum] } : ChanState).socket
      = st.socket := by
    simp
  cases h : st.socket with
  | none =>
    left
    rw [send_eq_none _ _ (by rw [hsock, h])]
    simp
  | some sock =>
    by_cases hr : sock.readyState = .connecting
    · left
      rw [send_eq_connecting _ _ sock (by rw [hsock, h]) hr]
      simp
    · right
      refine ⟨sock, rfl, hr, ?_⟩
      rw [send_eq_ready _ _ sock (by rw [hsock, h]) hr]

/-! ### fold lemmas for the eviction bounds -/

lemma le_foldl_max (l : List Nat) : ∀ a : Nat, a ≤ l.foldl max a := by
  induction l with
  | nil => intro a; exact le_refl a
  | cons x xs ih =>
    intro a; exact le_trans (le_max_left a x) (ih (max a x))

lemma foldl_max_le_mem (l : List Nat) :
    ∀ (a : Nat), ∀ x ∈ l, x ≤ l.foldl max a := by
  induction l with
  | nil => intro a x hx; simp at hx
  | cons y ys ih =>
    intro a x hx
    rcases List.mem_cons.mp hx with rfl | hmem
    · exact le_trans (le_max_right a x) (le_foldl_max ys (max a x))
    · exact ih (max a y) x hmem

lemma foldl_max_mem_or (l : List Nat) :
    ∀ a : Nat, l.foldl max a = a ∨ l.foldl max a ∈ l := by
  induction l with
  | nil => intro a; left; rfl
  | cons x xs ih =>
    intro a
    rcases ih (max a x) with h | h
    · rcases max_choice a x with hm | hm
      · left; rw [List.foldl_cons, h, hm]
      · right; rw [List.foldl_cons, h, hm]; exact List.mem_cons_self _ _
    · right; exact List.mem_cons_of_mem _ h

lemma maxKey_mem (l : List Nat) (h : l ≠ []) : maxKey l ∈ l := by
  rcases foldl_max_mem_or l 0 with h0 | h0
  · cases l with
    | nil => exact absurd rfl h
    | cons x xs =>
      have hx : x ≤ (x :: xs).foldl max 0 :=
        foldl_max_le_mem (x :: xs) 0 x (List.mem_cons_self _ _)
      rw [h0] at hx
      have hx0 : x = 0 := Nat.le_zero.mp hx
      show (x :: xs).foldl max 0 ∈ x :: xs
      rw [h0, ← hx0]
      exact List.mem_cons_self _ _
  · exact h0

lemma foldl_min_le (l : List Nat) : ∀ a : Nat, l.foldl min a ≤ a := by
  induction l with
  | nil => intro a; exact le_refl a
  | cons x xs ih =>
    intro a; exact le_trans (ih (min a x)) (min_le_left a x)

lemma foldl_min_le_mem (l : List Nat) :
    ∀ (a : Nat), ∀ x ∈ l, l.foldl min a ≤ x := by
  induction l with
  | nil => intro a x hx; simp at hx
  | cons y ys ih =>
    intro a x hx
    rcases List.mem_cons.mp hx with rfl | hmem
    · exact le_trans (foldl_min_le ys (min a x)) (min_le_right a x)
    · exact ih (min a y) x hmem

lemma minKey_le_maxKey (l : List Nat) (h : l ≠ []) : minKey l ≤ maxKey l :=
  foldl_min_le_mem l maxSafeInteger (maxKey l) (maxKey_mem l h)

/-! ### frame lemmas for `add`, `openEvt`, `closeEvt`, `receive` -/

@[simp] lemma add_pending (st : ChanState) (i : String) :
    (add st i).pending = st.pending := by
  simp only [add]
  split <;> simp

@[simp] lemma add_requestNum (st : ChanState) (i : String) :
    (add st i).requestNum = st.requestNum := by
  simp only [add]
  split <;> simp

@[simp] lemma add_resolved (st : ChanState) (i : String) :
    (add st i).resolved = st.resolved := by
  simp only [add]
  split <;> simp

@[simp] lemma add_sendQueue (st : ChanState) (i : String) :
    (add st i).sendQueue = st.sendQueue := by
  simp only [add]
  split <;> simp

@[simp] lemma openEvt_setProps (st : ChanState) :
    (openEvt st).setProps = st.setProps := by
  unfold openEvt; cases st.socket <;> rfl

@[simp] lemma openEvt_pending (st : ChanState) :
    (openEvt st).pending = st.pending := by
  unfold openEvt; cases st.socket <;> rfl

@[simp] lemma openEvt_sendQueue (st : ChanState) :
    (openEvt st).sendQueue = st.sendQueue := by
  unfold openEvt; cases st.socket <;> rfl

@[simp] lemma openEvt_requestNum (st : ChanState) :
    (openEvt st).requestNum = st.requestNum := by
  unfold openEvt; cases st.socket <;> rfl

@[simp] lemma openEvt_resolved (st : ChanState) :
    (openEvt st).resolved = st.resolved := by
  unfold openEvt; cases st.socket <;> rfl

@[simp] lemma closeEvt_socket (st : ChanState) :
    (closeEvt st).socket = none := rfl

@[simp] lemma closeEvt_sendQueue (st : ChanState) :
    (closeEvt st).sendQueue = [] := rfl

@[simp] lemma closeEvt_pending (st : ChanState) :
    (closeEvt st).pending = [] := rfl

@[simp] lemma closeEvt_requestNum (st : ChanState) :
    (closeEvt st).requestNum = st.requestNum := rfl

@[simp] lemma closeEvt_resolved (st : ChanState) :
    (closeEvt st).resolved = st.resolved := rfl

lemma update_frame (st : ChanState) (data : JsVal) (notify : Bool) :
    (update st data notify).1.setProps = st.setProps ∧
    (update st data notify).1.socket = st.socket ∧
    (update st data notify).1.pending = st.pending ∧
    (update st data notify).1.sendQueue = st.sendQueue ∧
    (update st data notify).1.requestNum = st.requestNum ∧
    (update st data notify).1.resolved = st.resolved :=
  updateGo_frame data notify data.keys st

@[simp] lemma receive_requestNum (st : ChanState) (msg : InMsg) :
    (receive st msg).1.requestNum = st.requestNum := by
  unfold receive
  split
  · exact (update_frame st msg.data false).2.2.2.2.1
  · split
    · exact (update_frame st msg.data true).2.2.2.2.1
    · split
      · simp
      · simp

@[simp] lemma receive_socket (st : ChanState) (msg : InMsg) :
    (receive st msg).1.socket = st.socket := by
  unfold receive
  split
  · exact (update_frame st msg.data false).2.1
  · split
    · exact (update_frame st msg.data true).2.1
    · split
      · simp
      · simp

lemma receive_pending_sub (st : ChanState) (msg : InMsg) :
    ∀ k ∈ (receive st msg).1.pending, k ∈ st.pending := by
  unfold receive
  split
  · rw [(update_frame st msg.data false).2.2.1]; exact fun k hk => hk
  · split
    · rw [(update_frame st msg.data true).2.2.1]; exact fun k hk => hk
    · split
      · intro k hk
        simp only at hk
        exact (List.mem_filter.mp hk).1
      · exact fun k hk => hk

lemma receive_pending_nodup (st : ChanState) (msg : InMsg)
    (hd : st.pending.Nodup) : (receive st msg).1.pending.Nodup := by
  unfold receive
  split
  · rw [(update_frame st msg.data false).2.2.1]; exact hd
  · split
    · rw [(update_frame st msg.data true).2.2.1]; exact hd
    · split
      · exact hd.filter _
      · exact hd

lemma receive_resolved_append (st : ChanState) (msg : InMsg) :
    ∃ new, (receive st msg).1.resolved = st.resolved ++ new ∧
      ∀ pr ∈ new, pr.1 ∈ st.pending := by
  unfold receive
  split
  · exact ⟨[], by rw [(update_frame st msg.data false).2.2.2.2.2]; simp,
      by simp⟩
  · split
    · exact ⟨[], by rw [(update_frame st msg.data true).2.2.2.2.2]; simp,
        by simp⟩
    · split
      · refine ⟨(pendingMatches st.pending msg.id).map
          (fun k => (k, msg.data)), by simp, ?_⟩
        intro pr hpr
        obtain ⟨k, hk, rfl⟩ := List.mem_map.mp hpr
        exact pendingMatches_sub st.pending msg.id k hk
      · exact ⟨[], by simp, by simp⟩

/-! ### the pending-table invariant along traces -/

lemma Inv_init : Inv initState :=
  ⟨List.nodup_nil, by intro k hk; simp [initState] at hk⟩

lemma Inv_step (st : ChanState) (e : Event) (h : Inv st) : Inv (step st e) := by
  obtain ⟨hd, hb⟩ := h
  cases e with
  | register i =>
    simp only [step]
    exact ⟨by simpa using hd, by simpa using hb⟩
  | req url p =>
    simp only [step]
    constructor
    · rw [request_pending]
      refine List.Nodup.append (checkPending_pending_nodup st hd)
        (List.nodup_singleton _) ?_
      intro a ha hb2
      have h1 : a < st.requestNum := hb a (checkPending_pending_sub st a ha)
      have h2 : a = st.requestNum := by simpa using hb2
      exact Nat.lt_irrefl a (h2 ▸ h1)
    · rw [request_pending, request_requestNum]
      intro k hk
      rcases List.mem_append.mp hk with h1 | h1
      · exact Nat.lt_succ_of_lt (hb k (checkPending_pending_sub st k h1))
      · have h2 : k = st.requestNum := by simpa using h1
        rw [h2]; exact Nat.lt_succ_self _
  | msg m =>
    simp only [step]
    refine ⟨receive_pending_nodup st m hd, ?_⟩
    rw [receive_requestNum]
    exact fun k hk => hb k (receive_pending_sub st m k hk)
  | sockOpen =>
    simp only [step]
    exact ⟨by simpa using hd, by simpa using hb⟩
  | sockClose =>
    simp only [step]
    exact ⟨by simp, by intro k hk; simp at hk⟩

lemma Inv_run (evs : List Event) : ∀ st, Inv st → Inv (run st evs) := by
  induction evs with
  | nil => intro st h; exact h
  | cons e rest ih =>
    intro st h
    have h1 : run st (e :: rest) = run (step st e) rest := rfl
    rw [h1]
    exact ih (step st e) (Inv_step st e h)

lemma step_requestNum_mono (st : ChanState) (e : Event) :
    st.requestNum ≤ (step st e).requestNum := by
  cases e <;> simp [step]

lemma step_gone (st : ChanState) (e : Event) (n : Nat)
    (h1 : n < st.requestNum) (h2 : n ∉ st.pending) :
    n < (step st e).requestNum ∧ n ∉ (step st e).pending ∧
    (step st e).resolved.filter (fun pr => pr.1 = n) =
      st.resolved.filter (fun pr => pr.1 = n) := by
  cases e with
  | register i =>
    simp only [step]
    exact ⟨by simpa using h1, by simpa using h2, by simp⟩
  | req url p =>
    simp only [step]
    refine ⟨?_, ?_, by simp⟩
    · rw [request_requestNum]; exact Nat.lt_succ_of_lt h1
    · rw [request_pending]
      intro hk
      rcases List.mem_append.mp hk with hA | hA
      · exact h2 (checkPending_pending_sub st n hA)
      · have hE : n = st.requestNum := by simpa using hA
        exact Nat.lt_irrefl n (hE ▸ h1)
  | msg m =>
    simp only [step]
    refine ⟨by rw [receive_requestNum]; exact h1,
      fun hk => h2 (receive_pending_sub st m n hk), ?_⟩
    obtain ⟨new, hnew, hsub⟩ := receive_resolved_append st m
    rw [hnew, List.filter_append]
    have hz : new.filter (fun pr => pr.1 = n) = [] := by
      refine List.filter_eq_nil.mpr (fun pr hpr => ?_)
      simp only [decide_eq_true_eq]
      intro he; exact h2 (he ▸ hsub pr hpr)
    rw [hz, List.append_nil]
  | sockOpen =>
    simp only [step]
    exact ⟨by simpa using h1, by simpa using h2, by simp⟩
  | sockClose =>
    simp only [step]
    exact ⟨by simpa using h1, by simp, by simp⟩

lemma run_gone (evs : List Event) : ∀ (st : ChanState) (n : Nat),
    n < st.requestNum → n ∉ st.pending →
    n < (run st evs).requestNum ∧ n ∉ (run st evs).pending ∧
    (run st evs).resolved.filter (fun pr => pr.1 = n) =
      st.resolved.filter (fun pr => pr.1 = n) := by
  induction evs with
  | nil => intro st n h1 h2; exact ⟨h1, h2, rfl⟩
  | cons e rest ih =>
    intro st n h1 h2
    have hstep := step_gone st e n h1 h2
    have h0 : run st (e :: rest) = run (step st e) rest := rfl
    rw [h0]
    have h4 := ih (step st e) n hstep.1 hstep.2.1
    exact ⟨h4.1, h4.2.1, h4.2.2.trans hstep.2.2⟩

/-! ### helper lemmas for the claim theorems -/

lemma request_pending_nodup (st : ChanState) (url : String) (p : Option JsVal)
    (hd : st.pending.Nodup) (hb : ∀ k ∈ st.pending, k < st.requestNum) :
    (request st url p).1.pending.Nodup := by
  rw [request_pending]
  refine List.Nodup.append (checkPending_pending_nodup st hd)
    (List.nodup_singleton _) ?_
  intro a ha hb2
  have h1 : a < st.requestNum := hb a (checkPending_pending_sub st a ha)
  have h2 : a = st.requestNum := by simpa using hb2
  exact Nat.lt_irrefl a (h2 ▸ h1)

lemma deliveredCalls_id_mem (data : JsVal) (notify : Bool)
    (reg ks : List String) :
    ∀ c ∈ deliveredCalls data notify reg ks, c.id ∈ ks ∧ c.id ∈ reg := by
  intro c hc
  obtain ⟨k, hk, rfl⟩ := List.mem_map.mp hc
  have h2 := List.mem_filter.mp hk
  exact ⟨h2.1, by simpa using h2.2⟩

lemma deliveredCalls_once (data : JsVal) (notify : Bool) (reg : List String) :
    ∀ ks : List String, ks.Nodup → ∀ k ∈ ks, k ∈ reg →
      (deliveredCalls data notify reg ks).filter (fun c => c.id = k) =
        [{ id := k, val := data.get k, notify := notify,
           structural := childrenFlag (data.get k) }] := by
  intro ks
  induction ks with
  | nil => intro _ k hk; simp at hk
  | cons x rest ih =>
    intro hnd k hk hreg
    rcases List.mem_cons.mp hk with rfl | hmem
    · have hx : k ∉ rest := (List.nodup_cons.mp hnd).1
      have hnil : (deliveredCalls data notify reg rest).filter
          (fun c => c.id = k) = [] := by
        refine List.filter_eq_nil.mpr (fun c hc => ?_)
        simp only [decide_eq_true_eq]
        intro he
        exact hx (he ▸ (deliveredCalls_id_mem data notify reg rest c hc).1)
      simp [deliveredCalls, List.filter_cons, hreg]
      rw [show (deliveredCalls data notify reg rest) =
        (rest.filter (fun a => decide (a ∈ reg))).map
          (fun a => { id := a, val := data.get a, notify := notify,
                      structural := childrenFlag (data.get a) }) from rfl] at hnil
      simpa using hnil
    · have hne : x ≠ k := by
        intro he; exact (List.nodup_cons.mp hnd).1 (he ▸ hmem)
      have ihr := ih (List.nodup_cons.mp hnd).2 k hmem hreg
      by_cases hxr : x ∈ reg
      · simp only [deliveredCalls, List.filter_cons] at ihr ⊢
        simp [hxr, hne, ihr]
      · simp only [deliveredCalls, List.filter_cons] at ihr ⊢
        simp [hxr, ihr]

lemma deliveredCalls_absent (data : JsVal) (notify : Bool)
    (reg ks : List String) (k : String) (hk : k ∉ reg) :
    (deliveredCalls data notify reg ks).filter (fun c => c.id = k) = [] := by
  refine List.filter_eq_nil.mpr (fun c hc => ?_)
  simp only [decide_eq_true_eq]
  intro he
  exact hk (he ▸ (deliveredCalls_id_mem data notify reg ks c hc).2)

lemma openEvt_none (st : ChanState) (h : st.socket = none) :
    openEvt st = st := by
  unfold openEvt; rw [h]

lemma openEvt_some (st : ChanState) (sock : Socket)
    (h : st.socket = some sock) :
    openEvt st = { st with socket := some (openedSocket sock st.sendQueue) } := by
  unfold openEvt
  rw [h]
  rfl

lemma request_socket_none (st : ChanState) (url : String) (p : Option JsVal)
    (h : st.socket = none) :
    (request st url p).1.socket = some freshSocket := by
  simp only [request]
  have hsock : ({ checkPending st with pending :=
      (checkPending st).pending ++ [(checkPending st).requestNum] }
      : ChanState).socket = none := by simp [h]
  rw [send_eq_none _ _ hsock]

lemma add_socket_none (st : ChanState) (i : String) (h : st.socket = none) :
    (add st i).socket = some freshSocket := by
  simp only [add]
  rw [checkSocket_socket_none st h]
  split <;> rfl

lemma run_no_socket (evs : List Event) : ∀ st : ChanState,
    st.socket = none → (∀ e ∈ evs, opensSocket e = false) →
    (run st evs).socket = none := by
  induction evs with
  | nil => intro st h _; exact h
  | cons e rest ih =>
    intro st h hall
    have h0 : run st (e :: rest) = run (step st e) rest := rfl
    rw [h0]
    refine ih (step st e) ?_ (fun x hx => hall x (List.mem_cons_of_mem _ hx))
    cases e with
    | register i =>
      exact absurd (hall _ (List.mem_cons_self _ _)) (by simp [opensSocket])
    | req url p =>
      exact absurd (hall _ (List.mem_cons_self _ _)) (by simp [opensSocket])
    | msg m =>
      simp only [step]
      rw [receive_socket]
      exact h
    | sockOpen =>
      simp only [step]
      rw [openEvt_none st h]
      exact h
    | sockClose =>
      simp only [step, closeEvt_socket]

/-! ### Claim theorems -/

/-- C8: `checkSocket` (the spec's `ensureConnection`) is idempotent: when no
connection handle exists it creates exactly one, in the CONNECTING state,
with the message-received, connection-opened and connection-closed callbacks
attached; when a handle already exists, in any state, the call changes
nothing — hence at most one handle (the single `Option Socket` field) ever
exists per channel instance. -/
theorem checkSocket_idempotent (st : ChanState) :
    (st.socket = none →
      checkSocket st = { st with socket := some freshSocket } ∧
      freshSocket.readyState = ReadyState.connecting ∧
      freshSocket.onmessage = some Handler.hReceive ∧
      freshSocket.onopen = some Handler.hOpen ∧
      freshSocket.onclose = some Handler.hClose) ∧
    (∀ s, st.socket = some s → checkSocket st = st) ∧
    checkSocket (checkSocket st) = checkSocket st := by
  refine ⟨fun h => ⟨checkSocket_socket_none st h, rfl, rfl, rfl, rfl⟩,
    fun s h => checkSocket_socket_some st s h, ?_⟩
  cases h : st.socket with
  | none =>
    rw [checkSocket_socket_none st h]
    exact checkSocket_socket_some _ freshSocket rfl
  | some s =>
    rw [checkSocket_socket_some st s h, checkSocket_socket_some st s h]

/-- C8 witness: applying the idempotence theorem at the initial state. -/
theorem checkSocket_idempotent_witness :
    initState.socket = none ∧
    checkSocket initState = { initState with socket := some freshSocket } :=
  ⟨rfl, ((checkSocket_idempotent initState).1 rfl).1⟩

/-- C9: backpressure eviction never deletes the entry carrying the maximum
pending sequence number: the midpoint of min and max is at most max, and
only keys strictly below the midpoint are deleted, so the most recent
outstanding request survives. -/
theorem eviction_spares_max (st : ChanState) (a b : Nat)
    (ha : a ∈ st.pending) (hb : b ∈ st.pending) (hab : a ≠ b) :
    maxKey st.pending ∈ (checkPending st).pending := by
  have hne : st.pending ≠ [] := by
    intro h; rw [h] at ha; simp at ha
  have hmem := maxKey_mem st.pending hne
  have hminmax := minKey_le_maxKey st.pending hne
  unfold checkPending
  split
  · refine List.mem_filter.mpr ⟨hmem, ?_⟩
    simp only [belowMidway, decide_eq_true_eq]
    omega
  · exact hmem

/-- C9 witness: in a two-entry pending table the larger key survives
eviction (trivially, as eviction does not even trigger below 51 entries). -/
theorem eviction_spares_max_witness :
    (3 : Nat) ∈ ({ initState with pending := [3, 7] } : ChanState).pending ∧
    (7 : Nat) ∈ ({ initState with pending := [3, 7] } : ChanState).pending ∧
    (3 : Nat) ≠ 7 ∧
    maxKey ({ initState with pending := [3, 7] } : ChanState).pending ∈
      (checkPending { initState with pending := [3, 7] }).pending :=
  ⟨by decide, by decide, by decide,
    eviction_spares_max { initState with pending := [3, 7] } 3 7
      (by decide) (by decide) (by decide)⟩

/-- C3 counterexample: `sparseState` has 51 pending entries (keys 0 and
100 … 149); the eviction triggered by the next `request` computes midpoint
74.5 and removes only the single entry 0 — far fewer than the lower half
(25 entries) of the table. -/
theorem eviction_below_half_counterexample :
    sparseState.pending.length = 51 ∧
    sparseState.pending.length > 50 ∧
    (checkPending sparseState).pending.length = 50 ∧
    sparseState.pending.length - (checkPending sparseState).pending.length
      = 1 ∧
    ¬ (sparseState.pending.length -
        (checkPending sparseState).pending.length ≥
        sparseState.pending.length / 2) ∧
    (100 : Nat) ∈ (checkPending sparseState).pending := by
  refine ⟨by decide, by decide, by decide, by decide, by decide, by decide⟩

/-- C3 (amended): when the pending table holds more than 50 entries, a
`request` first deletes — without resolving — exactly those entries whose
key is below the midpoint of the minimum and maximum pending sequence
numbers, before installing its own entry; this eviction can remove fewer
than half of the entries when the surviving keys are unevenly spread. -/
theorem checkPending_exact (st : ChanState) (h : st.pending.length > 50) :
    (checkPending st).resolved = st.resolved ∧
    (∀ url p, (request st url p).1.pending =
      (checkPending st).pending ++ [st.requestNum]) ∧
    ∀ k ∈ st.pending,
      (k ∈ (checkPending st).pending ↔
        ¬ (2 * k < minKey st.pending + maxKey st.pending)) := by
  refine ⟨checkPending_resolved st, fun url p => request_pending st url p, ?_⟩
  intro k hk
  unfold checkPending
  rw [if_pos h]
  constructor
  · intro hmem
    have h2 := (List.mem_filter.mp hmem).2
    simpa [belowMidway] using h2
  · intro hlt
    refine List.mem_filter.mpr ⟨hk, ?_⟩
    simpa [belowMidway] using hlt

/-- C3 amended-theorem witness: the exact-eviction characterization applied
to the 51-entry sparse table. -/
theorem checkPending_exact_witness :
    sparseState.pending.length > 50 ∧
    ((checkPending sparseState).resolved = sparseState.resolved ∧
     (∀ url p, (request sparseState url p).1.pending =
       (checkPending sparseState).pending ++ [sparseState.requestNum]) ∧
     ∀ k ∈ sparseState.pending,
       (k ∈ (checkPending sparseState).pending ↔
         ¬ (2 * k < minKey sparseState.pending +
             maxKey sparseState.pending))) :=
  ⟨by decide, checkPending_exact sparseState (by decide)⟩

/-- C5 (amended): `send` appends the envelope to the outbound queue while
the connection is CONNECTING and otherwise transmits it immediately; the
connection-opened event transmits every queued envelope in exactly enqueue
order — but leaves `sendQueue` unchanged rather than empty (the queue is
cleared only by the close handler). -/
theorem send_open_behavior (st : ChanState) (d : Envelope) :
    (st.socket = none →
      send st d = { st with socket := some freshSocket,
                            sendQueue := st.sendQueue ++ [d] }) ∧
    (∀ sock, st.socket = some sock → sock.readyState = .connecting →
      send st d = { st with sendQueue := st.sendQueue ++ [d] }) ∧
    (∀ sock, st.socket = some sock → sock.readyState ≠ .connecting →
      send st d =
        { st with socket := some ({ sock with sent := sock.sent ++ [d] }) }) ∧
    (∀ sock, st.socket = some sock →
      openEvt st =
        { st with socket := some (openedSocket sock st.sendQueue) } ∧
      (openedSocket sock st.sendQueue).sent = sock.sent ++ st.sendQueue ∧
      (openEvt st).sendQueue = st.sendQueue) := by
  refine ⟨send_eq_none st d,
    fun sock h hr => send_eq_connecting st d sock h hr,
    fun sock h hr => send_eq_ready st d sock h hr, fun sock h => ?_⟩
  exact ⟨openEvt_some st sock h, rfl, by simp⟩

/-- C5 witness: the queue-while-connecting branch and the flush-on-open
branch, at a state holding one queued envelope on a connecting socket. -/
theorem send_open_behavior_witness :
    queuedState.socket = some freshSocket ∧
    freshSocket.readyState = ReadyState.connecting ∧
    send queuedState { id := 1, url := "u", data := none } =
      { queuedState with sendQueue := queuedState.sendQueue ++
          [{ id := 1, url := "u", data := none }] } ∧
    openEvt queuedState =
      { queuedState with
          socket := some (openedSocket freshSocket queuedState.sendQueue) } :=
  ⟨rfl, rfl,
    (send_open_behavior queuedState { id := 1, url := "u", data := none }).2.1
      freshSocket rfl rfl,
    ((send_open_behavior queuedState
        { id := 1, url := "u", data := none }).2.2.2 freshSocket rfl).1⟩

/-- C5 counterexample: at `queuedState` (connecting socket, one queued
envelope) the open event transmits the envelope but the outbound queue is
NOT left empty — it still holds the very envelope just transmitted. -/
theorem open_queue_not_emptied :
    (openEvt queuedState).sendQueue =
      [{ id := 0, url := "load_layout", data := none }] ∧
    (openEvt queuedState).sendQueue ≠ [] ∧
    (openEvt queuedState).socket =
      some (openedSocket freshSocket
        [{ id := 0, url := "load_layout", data := none }]) := by
  refine ⟨rfl, ?_, rfl⟩
  intro hEq
  exact List.cons_ne_nil _ _ hEq

/-- C7: on the connection-closed event the socket handle becomes null and
the outbound queue and pending table become empty; a request pending at
that moment is never resolved by any sequence of later events (its future
never settles); no later event other than a `request` or `register` creates
a socket (no auto-reconnect), and the next `request` or `register` call
creates a fresh connecting socket. -/
theorem close_behavior (st : ChanState) (n : Nat) (evs : List Event)
    (hb : ∀ k ∈ st.pending, k < st.requestNum) (hn : n ∈ st.pending) :
    (closeEvt st).socket = none ∧
    (closeEvt st).sendQueue = [] ∧
    (closeEvt st).pending = [] ∧
    ((run (closeEvt st) evs).resolved.filter (fun pr => pr.1 = n) =
      st.resolved.filter (fun pr => pr.1 = n)) ∧
    ((∀ e ∈ evs, opensSocket e = false) →
      (run (closeEvt st) evs).socket = none) ∧
    (∀ url p, (step (closeEvt st) (Event.req url p)).socket =
      some freshSocket) ∧
    (∀ i, (step (closeEvt st) (Event.register i)).socket =
      some freshSocket) := by
  refine ⟨rfl, rfl, rfl, ?_, ?_, ?_, ?_⟩
  · have h1 : n < (closeEvt st).requestNum := by
      rw [closeEvt_requestNum]; exact hb n hn
    have h2 : n ∉ (closeEvt st).pending := by simp
    exact (run_gone evs (closeEvt st) n h1 h2).2.2
  · exact fun hall => run_no_socket evs (closeEvt st) rfl hall
  · intro url p
    simp only [step]
    exact request_socket_none (closeEvt st) url p rfl
  · intro i
    simp only [step]
    exact add_socket_none (closeEvt st) i rfl

/-- C7 witness: closing right after one request abandons request 0 across a
subsequent open event, and a fresh request reconnects. -/
theorem close_behavior_witness :
    (∀ k ∈ oneRequestState.pending, k < oneRequestState.requestNum) ∧
    0 ∈ oneRequestState.pending ∧
    ((closeEvt oneRequestState).socket = none ∧
     (closeEvt oneRequestState).sendQueue = [] ∧
     (closeEvt oneRequestState).pending = [] ∧
     ((run (closeEvt oneRequestState) [Event.sockOpen]).resolved.filter
         (fun pr => pr.1 = 0) =
       oneRequestState.resolved.filter (fun pr => pr.1 = 0)) ∧
     ((∀ e ∈ [Event.sockOpen], opensSocket e = false) →
       (run (closeEvt oneRequestState) [Event.sockOpen]).socket = none) ∧
     (∀ url p,
       (step (closeEvt oneRequestState) (Event.req url p)).socket =
         some freshSocket) ∧
     (∀ i, (step (closeEvt oneRequestState) (Event.register i)).socket =
       some freshSocket)) :=
  ⟨by decide, by decide,
    close_behavior oneRequestState 0 [Event.sockOpen] (by decide) (by decide)⟩

/-- C4: along every event trace from the initial state, the pending keys
are distinct and all strictly below the counter; no operation decreases the
counter (it is never reset); and a `request` from the reached state
allocates exactly the current counter value — a number never still present
in the pending table — and increments the counter by one, so the numbers
allocated by successive requests are strictly increasing. -/
theorem counter_invariant (evs : List Event) :
    (run initState evs).pending.Nodup ∧
    (∀ k ∈ (run initState evs).pending, k < (run initState evs).requestNum) ∧
    (∀ e, (run initState evs).requestNum ≤
      (step (run initState evs) e).requestNum) ∧
    (∀ url p,
      (request (run initState evs) url p).2 =
        (run initState evs).requestNum ∧
      (request (run initState evs) url p).2 ∉ (run initState evs).pending ∧
      (request (run initState evs) url p).1.requestNum =
        (run initState evs).requestNum + 1) := by
  have hInv := Inv_run evs initState Inv_init
  refine ⟨hInv.1, hInv.2, fun e => step_requestNum_mono _ e,
    fun url p => ⟨request_snd _ _ _, ?_, request_requestNum _ _ _⟩⟩
  rw [request_snd]
  intro hk
  exact Nat.lt_irrefl _ (hInv.2 _ hk)

/-- C4 witness: after one request, the next allocation is the counter value
and is not pending. -/
theorem counter_invariant_witness :
    (run initState [Event.req "load_layout" none]).pending.Nodup ∧
    (request (run initState [Event.req "load_layout" none]) "x" none).2 =
      (run initState [Event.req "load_layout" none]).requestNum ∧
    (request (run initState [Event.req "load_layout" none]) "x" none).2 ∉
      (run initState [Event.req "load_layout" none]).pending :=
  ⟨(counter_invariant [Event.req "load_layout" none]).1,
    ((counter_invariant [Event.req "load_layout" none]).2.2.2 "x" none).1,
    ((counter_invariant [Event.req "load_layout" none]).2.2.2 "x" none).2.1⟩

/-- C1: `request(endpoint, payload)` hands `send` the envelope
`{id: n, url: endpoint}` where `n` is the current counter value, with a
`data` field present iff a payload (other than `undefined`) was supplied;
an entry for `n` is installed in the pending table, and a reply carrying
`id === n` resolves the returned future with the reply's `data` field,
removing the entry. -/
theorem request_correct (st : ChanState) (url : String) (p : Option JsVal)
    (hd : st.pending.Nodup) (hb : ∀ k ∈ st.pending, k < st.requestNum) :
    (request st url p).2 = st.requestNum ∧
    (mkRequestEnvelope st.requestNum url p).id = st.requestNum ∧
    (mkRequestEnvelope st.requestNum url p).url = url ∧
    ((mkRequestEnvelope st.requestNum url p).data.isSome ↔ p.isSome) ∧
    ((request st url p).1.sendQueue =
        st.sendQueue ++ [mkRequestEnvelope st.requestNum url p] ∨
      ∃ sock, st.socket = some sock ∧ sock.readyState ≠ .connecting ∧
        (request st url p).1.socket =
          some ({ sock with
                   sent := sock.sent ++
                     [mkRequestEnvelope st.requestNum url p] })) ∧
    st.requestNum ∈ (request st url p).1.pending ∧
    ∀ d, receive (request st url p).1
        { id := .num st.requestNum, data := d } =
      ({ (request st url p).1 with
          resolved := (request st url p).1.resolved ++ [(st.requestNum, d)],
          pending := (request st url p).1.pending.filter
            (fun k => k ≠ st.requestNum) }, none) := by
  have hmem : st.requestNum ∈ (request st url p).1.pending := by
    rw [request_pending]
    exact List.mem_append_right _ (by simp)
  refine ⟨request_snd st url p, mkRequestEnvelope_id _ _ _,
    mkRequestEnvelope_url _ _ _, by rw [mkRequestEnvelope_data],
    request_out st url p, hmem, fun d => ?_⟩
  exact receive_resolve _ st.requestNum d
    (request_pending_nodup st url p hd hb) hmem

/-- C1 witness: the first request from the initial state is number 0, its
envelope carries no data field, and a reply `{id: 0, data: true}` resolves
future 0. -/
theorem request_correct_witness :
    initState.pending.Nodup ∧
    (∀ k ∈ initState.pending, k < initState.requestNum) ∧
    ((request initState "load_layout" none).2 = initState.requestNum ∧
     (mkRequestEnvelope initState.requestNum "load_layout" none).id =
       initState.requestNum ∧
     (mkRequestEnvelope initState.requestNum "load_layout" none).url =
       "load_layout" ∧
     ((mkRequestEnvelope initState.requestNum "load_layout" none).data.isSome
       ↔ (none : Option JsVal).isSome) ∧
     ((request initState "load_layout" none).1.sendQueue =
         initState.sendQueue ++
           [mkRequestEnvelope initState.requestNum "load_layout" none] ∨
       ∃ sock, initState.socket = some sock ∧
         sock.readyState ≠ .connecting ∧
         (request initState "load_layout" none).1.socket =
           some ({ sock with
                    sent := sock.sent ++
                      [mkRequestEnvelope initState.requestNum
                        "load_layout" none] })) ∧
     initState.requestNum ∈ (request initState "load_layout" none).1.pending ∧
     ∀ d, receive (request initState "load_layout" none).1
         { id := .num initState.requestNum, data := d } =
       ({ (request initState "load_layout" none).1 with
           resolved := (request initState "load_layout" none).1.resolved ++
             [(initState.requestNum, d)],
           pending := (request initState "load_layout" none).1.pending.filter
             (fun k => k ≠ initState.requestNum) }, none)) :=
  ⟨by decide, by decide,
    request_correct initState "load_layout" none (by decide) (by decide)⟩

/-- C2: inbound dispatch follows the priority order: id `mod` goes to
`update` with notify=false; id `mod_n` goes to `update` with notify=true;
otherwise a numeric id present in the pending table resolves exactly that
entry with the envelope's data and deletes it; any other message is dropped
with no state change. -/
theorem receive_dispatch (st : ChanState) (msg : InMsg) :
    (msg.id = .str "mod" → receive st msg = update st msg.data false) ∧
    (msg.id = .str "mod_n" → receive st msg = update st msg.data true) ∧
    (∀ n, msg.id = .num n → st.pending.Nodup → n ∈ st.pending →
      receive st msg =
        ({ st with resolved := st.resolved ++ [(n, msg.data)],
                   pending := st.pending.filter (fun k => k ≠ n) }, none)) ∧
    (msg.id ≠ .str "mod" → msg.id ≠ .str "mod_n" →
      inPending st.pending msg.id = false → receive st msg = (st, none)) := by
  refine ⟨receive_mod st msg, receive_mod_n st msg, ?_, receive_drop st msg⟩
  intro n he hd hn
  cases msg with
  | mk mid mdata =>
    cases he
    exact receive_resolve st n mdata hd hn

/-- C2 witness: a reply `{id: 0, data: true}` arriving at the one-request
state resolves pending entry 0 exactly once and deletes it. -/
theorem receive_dispatch_witness :
    oneRequestState.pending.Nodup ∧
    0 ∈ oneRequestState.pending ∧
    receive oneRequestState { id := MsgId.num 0, data := JsVal.bool true } =
      ({ oneRequestState with
          resolved := oneRequestState.resolved ++ [(0, JsVal.bool true)],
          pending := oneRequestState.pending.filter (fun k => k ≠ 0) },
        none) :=
  ⟨by decide, by decide,
    (receive_dispatch oneRequestState
        { id := MsgId.num 0, data := JsVal.bool true }).2.2.1 0 rfl
      (by decide) (by decide)⟩

/-- C6: delivering a broadcast update `(data, notify)` invokes, for each id
of `data` present in the observer registry, that id's handler exactly once
with the new value, the notify flag, and a boolean that is true iff the new
value has a `children` field; ids absent from the registry are ignored
without error and without state change.  (Delivery succeeds provided each
registered id's value is an object — the complement is claim C10.) -/
theorem update_delivery (st : ChanState) (fields : List (String × JsVal))
    (notify : Bool) (hnd : (JsVal.obj fields).keys.Nodup)
    (hobj : ∀ k ∈ (JsVal.obj fields).keys, k ∈ st.setProps →
      ((JsVal.obj fields).get k).isObj = true) :
    update st (JsVal.obj fields) notify =
      ({ st with calls :=
          st.calls ++ deliveredCalls (JsVal.obj fields) notify st.setProps (JsVal.obj fields).keys }, none) ∧
    (∀ k ∈ (JsVal.obj fields).keys, k ∈ st.setProps →
      (deliveredCalls (JsVal.obj fields) notify st.setProps
          (JsVal.obj fields).keys).filter (fun c => c.id = k) =
        [{ id := k, val := (JsVal.obj fields).get k, notify := notify,
           structural := childrenFlag ((JsVal.obj fields).get k) }]) ∧
    (∀ k, k ∉ st.setProps →
      (deliveredCalls (JsVal.obj fields) notify st.setProps
          (JsVal.obj fields).keys).filter (fun c => c.id = k) = []) := by
  refine ⟨updateGo_ok _ notify _ st hobj, ?_, ?_⟩
  · exact fun k hk hreg =>
      deliveredCalls_once _ notify st.setProps _ hnd k hk hreg
  · exact fun k hk => deliveredCalls_absent _ notify st.setProps _ k hk

/-- C6 witness: a broadcast carrying an object value for the registered id
`slider` (and a primitive for the unregistered id `other`) is delivered
exactly once to `slider` with the structural flag false. -/
theorem update_delivery_witness :
    (JsVal.obj [("slider", .obj [("value", .num 5)]), ("other", .num 3)]
      : JsVal).keys.Nodup ∧
    (∀ k ∈ (broadcastVal).keys, k ∈ regState.setProps →
      ((broadcastVal).get k).isObj = true) ∧
    (update regState broadcastVal true =
      ({ regState with calls :=
          regState.calls ++ deliveredCalls broadcastVal true regState.setProps broadcastVal.keys }, none) ∧
     (∀ k ∈ broadcastVal.keys, k ∈ regState.setProps →
       (deliveredCalls broadcastVal true regState.setProps
           broadcastVal.keys).filter (fun c => c.id = k) =
         [{ id := k, val := broadcastVal.get k, notify := true,
            structural := childrenFlag (broadcastVal.get k) }]) ∧
     (∀ k, k ∉ regState.setProps →
       (deliveredCalls broadcastVal true regState.setProps
           broadcastVal.keys).filter (fun c => c.id = k) = [])) :=
  ⟨by decide, by decide,
    update_delivery regState
      [("slider", .obj [("value", .num 5)]), ("other", .num 3)] true
      (by decide) (by decide)⟩

/-- C10: broadcast delivery is total only when every registered id's new
value is an object: the structural flag evaluates `'children' in val`, so a
broadcast mapping a registered id to a primitive value makes `update`
terminate with a TypeError, and no handler invocation ever carries that
id. -/
theorem update_primitive_error (st : ChanState) (data : JsVal)
    (notify : Bool) (k : String) (hk : k ∈ data.keys)
    (hreg : k ∈ st.setProps) (hbad : (data.get k).isObj = false) :
    ((update st data notify).2).isSome = true ∧
    ∀ c ∈ (update st data notify).1.calls, c ∈ st.calls ∨ c.id ≠ k := by
  refine ⟨updateGo_err data notify data.keys st k hk hreg hbad, ?_⟩
  obtain ⟨new, hnew, hprop⟩ := updateGo_calls_append data notify data.keys st
  intro c hc
  rw [show (update st data notify) = updateGo data notify data.keys st
    from rfl, hnew] at hc
  rcases List.mem_append.mp hc with h | h
  · exact Or.inl h
  · refine Or.inr ?_
    intro he
    have hp := (hprop c h).2.2.2.1
    rw [he] at hp
    rw [hbad] at hp
    exact Bool.noConfusion hp

/-- C10 witness: the broadcast `{slider: 5}` against a registry holding
`slider` throws instead of invoking the handler. -/
theorem update_primitive_error_witness :
    "slider" ∈ primBroadcast.keys ∧
    "slider" ∈ regState.setProps ∧
    (primBroadcast.get "slider").isObj = false ∧
    (((update regState primBroadcast false).2).isSome = true ∧
     ∀ c ∈ (update regState primBroadcast false).1.calls,
       c ∈ regState.calls ∨ c.id ≠ "slider") :=
  ⟨by decide, by decide, by decide,
    update_primitive_error regState primBroadcast false "slider"
      (by decide) (by decide) (by decide)⟩

end Pushee
